import Mathlib

/-
Verification of the retry-strategies simulator (main.go).

Modelling conventions, chosen once for the whole file:

* Durations are integer nanosecond counts (Go's time.Duration is an int64
  count of nanoseconds): type ℤ.  The per-second counters of the server are
  natural numbers (they are only ever incremented starting from zero).
* The server's map[int]int counters become total functions ℤ → ℕ with
  default value 0, matching Go's zero value for absent map keys.
* Server.Do runs under a mutex, so a concurrent run is an arbitrary
  finite sequence of atomic Do calls; the elapsed time observed by a call
  is an arbitrary natural number of nanoseconds (time.Since on the
  monotonic clock is non-negative).  int(elapsed.Seconds()) is floor
  division by 10^9 for non-negative elapsed.
* rand.Int63n n is modelled as a function of an abstract random source
  r : ℕ; it yields none when n ≤ 0 (Go panics there) and otherwise the
  draw r % n, so exactly the values in [0, n) are reachable.
* The float64 product in exponentialBackoff/fullJitter is exact (100ms
  times a power of two, exactly representable); the subsequent
  time.Duration conversion is exact while the value fits in int64 and,
  once it overflows (attempt >= 37), yields the gc/amd64 hardware
  sentinel -2^63, which durOfFloat models.  The int64 arithmetic in
  decorrelatedJitter wraps modulo 2^64 as defined by the Go spec, which
  wrap64 models explicitly.
-/

namespace RetrySim

/-- One second in nanoseconds, the unit of time.Duration. -/
def nsPerSec : ℤ := 1000000000

/-- baseSleep = 100 * time.Millisecond from main.go. -/
def baseSleep : ℤ := 100000000

/-- capSleep = 10 * time.Second from main.go. -/
def capSleep : ℤ := 10000000000

/-- The Server struct: capacity, outage duration, and the two per-second
counter maps (the mutex and start instant are the concurrency/time model,
not data). -/
structure Server where
  capacity : ℤ
  downFor : ℤ
  requests : ℤ → ℕ
  accepted : ℤ → ℕ

/-- NewServer from main.go: empty counter maps. -/
def NewServer (capacity downFor : ℤ) : Server :=
  { capacity := capacity, downFor := downFor,
    requests := fun _ => 0, accepted := fun _ => 0 }

/-- Server.Do from main.go, as one atomic step (the whole body runs under
s.mu).  elapsed is the value of time.Since(s.start) observed by this call,
in nanoseconds.  Returns the new server state and the accepted flag. -/
def Server.Do (s : Server) (elapsed : ℕ) : Server × Bool :=
  let sec : ℤ := ((elapsed / 1000000000 : ℕ) : ℤ)
  let s1 : Server :=
    { s with requests := Function.update s.requests sec (s.requests sec + 1) }
  if (elapsed : ℤ) < s.downFor then (s1, false)
  else if s.capacity ≤ (s1.accepted sec : ℤ) then (s1, false)
  else ({ s1 with accepted := Function.update s1.accepted sec (s1.accepted sec + 1) }, true)

/-- A run of the server: any finite interleaving of atomic Do calls,
each with its observed elapsed time, starting from NewServer. -/
def runServer (capacity downFor : ℤ) (calls : List ℕ) : Server :=
  calls.foldl (fun s e => (Server.Do s e).1) (NewServer capacity downFor)

/-- rand.Int63n from math/rand: panics (none) for n ≤ 0, otherwise a draw
in [0, n) obtained from the abstract random source r. -/
def Int63n (n : ℤ) (r : ℕ) : Option ℤ :=
  if n ≤ 0 then none else some ((r : ℤ) % n)

/-- Two's-complement int64 wrap-around, the Go semantics of int64
addition, subtraction and multiplication. -/
def wrap64 (x : ℤ) : ℤ := (x + 2 ^ 63) % 2 ^ 64 - 2 ^ 63

/-- constantRetry from main.go: always 1ms. -/
def constantRetry (_attempt : ℕ) (_prev : ℤ) : ℤ := 1000000

/-- Go's non-constant float64 to int64 conversion as compiled by gc on
amd64, applied to the exact product value: in-range values convert
exactly (every float64 operand occurring here is integral), out-of-range
values (the overflowed products for attempt >= 37, including the +Inf
cases for very large attempts) produce the hardware sentinel -2^63. -/
def durOfFloat (x : ℤ) : ℤ :=
  if -(2 ^ 63) ≤ x ∧ x < 2 ^ 63 then x else -(2 ^ 63)

/-- exponentialBackoff from main.go: 100ms·2^attempt computed exactly in
float64, converted to time.Duration (overflowing to -2^63 for
attempt >= 37 on gc/amd64), then clamped to capSleep — the clamp does
not fire on the negative overflow value. -/
def exponentialBackoff (attempt : ℕ) (_prev : ℤ) : ℤ :=
  let d : ℤ := durOfFloat (baseSleep * 2 ^ attempt)
  if capSleep < d then capSleep else d

/-- fullJitter from main.go: a random draw in [0, d) where d is the
clamped backoff value; for attempt >= 37 the overflowed d is -2^63 and
rand.Int63n panics on the non-positive argument. -/
def fullJitter (attempt : ℕ) (_prev : ℤ) (r : ℕ) : Option ℤ :=
  let d0 : ℤ := durOfFloat (baseSleep * 2 ^ attempt)
  let d : ℤ := if capSleep < d0 then capSleep else d0
  Int63n d r

/-- decorrelatedJitter from main.go: raise prev to at least baseSleep,
draw in [0, prev*3 - baseSleep) (the int64 arithmetic wraps), add
baseSleep (int64 addition, wraps) and clamp to capSleep. -/
def decorrelatedJitter (_attempt : ℕ) (prev : ℤ) (r : ℕ) : Option ℤ :=
  let p : ℤ := if prev < baseSleep then baseSleep else prev
  (Int63n (wrap64 (wrap64 (p * 3) - baseSleep)) r).map fun x =>
    let d : ℤ := wrap64 (x + baseSleep)
    if capSleep < d then capSleep else d

/-- The Metrics struct from main.go (without its mutex): totals plus the
latency slice, in insertion order. -/
structure Metrics where
  totalRequests : ℤ
  wastedReqs : ℤ
  latencies : List ℤ

/-- Metrics.Record from main.go, one atomic step (runs under m.mu). -/
def Metrics.Record (m : Metrics) (latency : ℤ) (wasted : ℤ) : Metrics :=
  { totalRequests := m.totalRequests + (wasted + 1),
    wastedReqs := m.wastedReqs + wasted,
    latencies := m.latencies ++ [latency] }

/-- The zero Metrics value (&Metrics{} in runSimulation). -/
def zeroMetrics : Metrics := { totalRequests := 0, wastedReqs := 0, latencies := [] }

/-- A run of the metrics aggregator: any finite sequence of Record calls
(latency, wasted) starting from the zero value. -/
def runMetrics (calls : List (ℤ × ℤ)) : Metrics :=
  calls.foldl (fun m c => m.Record c.1 c.2) zeroMetrics

/-- The in-place sort.Slice ascending sort of the latency slice in
printSummary, modelled by insertion sort (same sorted result). -/
def sortLats (l : List ℤ) : List ℤ := List.insertionSort (· ≤ ·) l

/-- The p99 index computation of printSummary:
idx := int(float64(n) * 0.99), clamped to n-1.  float64(n)*0.99 rounds to
exactly floor(99n/100) for every list length n that can occur (the product
99n/100 is never within one rounding error of the next integer), so the
index is modelled as 99*n/100 in exact arithmetic. -/
def p99Index (n : ℕ) : ℕ :=
  let idx := 99 * n / 100
  if n ≤ idx then n - 1 else idx

/-- The p99 latency computed by printSummary: zero when no latencies
exist, otherwise the sorted collection at the clamped p99 index. -/
def p99Of (lats : List ℤ) : ℤ :=
  let sorted := sortLats lats
  if sorted.length = 0 then 0
  else sorted.getD (p99Index sorted.length) 0

/-- downSec := int(srv.downFor.Seconds()) in printSummary: truncation
toward zero, Go's float-to-int conversion of the exact quotient. -/
def downSecOf (srv : Server) : ℤ := srv.downFor.tdiv nsPerSec

/-- The per-second stability test of the time-to-stable scan:
requests[s] > 0 and rejected := requests[s] - accepted[s] equals 0. -/
def stableAt (srv : Server) (s : ℤ) : Prop :=
  0 < srv.requests s ∧ (srv.requests s : ℤ) - (srv.accepted s : ℤ) = 0

instance (srv : Server) (s : ℤ) : Decidable (stableAt srv s) :=
  inferInstanceAs (Decidable (_ ∧ _))

/-- The time-to-stable scan loop of printSummary: starting at second s,
with n seconds of window left, the first stable second, if any. -/
def findStable (srv : Server) : ℤ → ℕ → Option ℤ
  | _, 0 => none
  | s, n + 1 => if stableAt srv s then some s else findStable srv (s + 1) n

/-- recoveryTime from printSummary: the first stable second in the
60-second window after the outage, relative to the end of the outage;
-1 encodes "none found", printed as the unresolved report ">60s". -/
def recoveryTime (srv : Server) : ℤ :=
  match findStable srv (downSecOf srv) 60 with
  | some s => s - downSecOf srv
  | none => -1

/-- peakOvershoot from printSummary: running maximum of
requests[s] - capacity over the 60-second post-outage window, from 0. -/
def peakOvershoot (srv : Server) : ℤ :=
  (List.range 60).foldl
    (fun acc o =>
      let over := (srv.requests (downSecOf srv + (o : ℤ)) : ℤ) - srv.capacity
      if acc < over then over else acc) 0

/-- The summary block printed by printSummary. -/
structure Summary where
  recovery : ℤ
  peak : ℤ
  total : ℤ
  wasted : ℤ
  served : ℕ
  p99 : ℤ

/-- printSummary from main.go as a state transformer: it computes the
summary and writes back the server (untouched: the function only reads
srv under its lock) and the metrics.  The code sorts metrics.latencies in
place via sort.Slice, so the returned metrics carries the sorted slice;
the two totals are only read. -/
def printSummary (srv : Server) (m : Metrics) : Summary × Server × Metrics :=
  ({ recovery := recoveryTime srv, peak := peakOvershoot srv,
     total := m.totalRequests, wasted := m.wastedReqs,
     served := m.latencies.length, p99 := p99Of m.latencies },
   srv,
   { totalRequests := m.totalRequests, wastedReqs := m.wastedReqs,
     latencies := sortLats m.latencies })

/-- printHistogram from main.go as a state transformer: it only reads the
server under its lock and writes nothing back.  maxSec and maxCount are
the maximum key and maximum value of the requests map (computed in Go by
iterating the map's keys, which the function-typed model cannot
enumerate, so they are passed in).  Each row is the second, its request
count, and the proportional bar width count*60/maxCount; string rendering
is out of scope. -/
def printHistogram (srv : Server) (maxSec maxCount : ℕ) : Server × List (ℤ × ℕ × ℕ) :=
  (srv,
   (List.range (maxSec + 1)).map fun s =>
     ((s : ℤ), srv.requests (s : ℤ),
      if 0 < maxCount then srv.requests (s : ℤ) * 60 / maxCount else 0))

/-- The latency collection {1, 2, ..., 100} of the p99 test scenario. -/
def oneTo100 : List ℤ := (List.range 100).map fun i => (i : ℤ) + 1

/-- The time-to-stable scenario server: 2-second outage, capacity 5,
requests[2] = accepted[2] = 3, all other seconds empty. -/
def sampleServer : Server :=
  { capacity := 5, downFor := 2000000000,
    requests := fun s => if s = 2 then 3 else 0,
    accepted := fun s => if s = 2 then 3 else 0 }

/-- A server that never saw a request (for instantiating the unresolved
branch of the time-to-stable scan). -/
def emptyServer : Server :=
  { capacity := 5, downFor := 2000000000,
    requests := fun _ => 0, accepted := fun _ => 0 }

/-- A finished metrics state whose latency slice is out of order. -/
def cexMetrics : Metrics := { totalRequests := 3, wastedReqs := 1, latencies := [2, 1] }

/-- The run invariant of the server: the configuration is fixed, every
second's acceptance count is bounded by the capacity, and every second
lying entirely inside the outage window has acceptance count zero. -/
def ServerInv (c df : ℤ) (srv : Server) : Prop :=
  srv.capacity = c ∧ srv.downFor = df ∧
    ∀ s : ℤ, (srv.accepted s : ℤ) ≤ c ∧ ((s + 1) * nsPerSec ≤ df → srv.accepted s = 0)

lemma serverInv_do (c df : ℤ) (srv : Server) (e : ℕ) (h : ServerInv c df srv) :
    ServerInv c df (Server.Do srv e).1 := by
  obtain ⟨hc, hd, hinv⟩ := h
  unfold Server.Do
  dsimp only
  by_cases h1 : (e : ℤ) < srv.downFor
  · rw [if_pos h1]
    exact ⟨hc, hd, hinv⟩
  · rw [if_neg h1]
    by_cases h2 : srv.capacity ≤ ((srv.accepted ((e / 1000000000 : ℕ) : ℤ)) : ℤ)
    · rw [if_pos h2]
      exact ⟨hc, hd, hinv⟩
    · rw [if_neg h2]
      dsimp only
      refine ⟨hc, hd, fun s => ⟨?_, ?_⟩⟩
      · simp only [Function.update_apply]
        split
        · next hs =>
            have hle := (hinv ((e / 1000000000 : ℕ) : ℤ)).1
            omega
        · exact (hinv s).1
      · intro hout
        simp only [Function.update_apply]
        split
        · next hs =>
            exfalso
            unfold nsPerSec at hout
            omega
        · exact (hinv s).2 hout

lemma serverInv_run (c df : ℤ) (calls : List ℕ) (srv : Server) (h : ServerInv c df srv) :
    ServerInv c df (calls.foldl (fun s e => (Server.Do s e).1) srv) := by
  induction calls generalizing srv with
  | nil => exact h
  | cons e rest ih => exact ih _ (serverInv_do c df srv e h)

/-- Claim C1: in every state reachable by any interleaving of Server.Do
calls (each call atomic under the server mutex), every second's accepted
count is at most the capacity, and every second falling entirely within
the outage window has accepted count zero. -/
theorem server_accept_invariant (capacity downFor : ℤ) (hcap : 0 ≤ capacity)
    (calls : List ℕ) (s : ℤ) :
    ((runServer capacity downFor calls).accepted s : ℤ) ≤ capacity ∧
      ((s + 1) * nsPerSec ≤ downFor → (runServer capacity downFor calls).accepted s = 0) := by
  have h0 : ServerInv capacity downFor (NewServer capacity downFor) :=
    ⟨rfl, rfl, fun s => ⟨by simpa using hcap, fun _ => rfl⟩⟩
  exact (serverInv_run capacity downFor calls _ h0).2.2 s

/-- Witness for C1 at capacity 5, a 2s outage, and two concrete calls:
second 0 lies inside the outage, so its accepted count is 0 and below
capacity. -/
theorem server_accept_invariant_witness :
    ((runServer 5 2000000000 [500000000, 2500000000]).accepted 0 : ℤ) ≤ 5 ∧
      (runServer 5 2000000000 [500000000, 2500000000]).accepted 0 = 0 :=
  ⟨(server_accept_invariant 5 2000000000 (by decide) [500000000, 2500000000] 0).1,
   (server_accept_invariant 5 2000000000 (by decide) [500000000, 2500000000] 0).2
     (by unfold nsPerSec; decide)⟩

/-- Claim C2: a Server.Do call increments the request counter of the
current second (elapsed nanoseconds divided by 10^9) by exactly one and
touches no other second and no configuration field; within the outage
window it returns false leaving all accepted counters unchanged;
otherwise it returns true and increments accepted[sec] by one exactly
when accepted[sec] < capacity, and returns false leaving accepted
unchanged when accepted[sec] has reached capacity. -/
theorem Do_spec (s : Server) (elapsed : ℕ) :
    (Server.Do s elapsed).1.requests ((elapsed / 1000000000 : ℕ) : ℤ)
        = s.requests ((elapsed / 1000000000 : ℕ) : ℤ) + 1
    ∧ (∀ t : ℤ, t ≠ ((elapsed / 1000000000 : ℕ) : ℤ) →
        (Server.Do s elapsed).1.requests t = s.requests t)
    ∧ (Server.Do s elapsed).1.capacity = s.capacity
    ∧ (Server.Do s elapsed).1.downFor = s.downFor
    ∧ (if (elapsed : ℤ) < s.downFor then
        (Server.Do s elapsed).2 = false ∧ (Server.Do s elapsed).1.accepted = s.accepted
      else if (s.accepted ((elapsed / 1000000000 : ℕ) : ℤ) : ℤ) < s.capacity then
        (Server.Do s elapsed).2 = true
        ∧ (Server.Do s elapsed).1.accepted ((elapsed / 1000000000 : ℕ) : ℤ)
            = s.accepted ((elapsed / 1000000000 : ℕ) : ℤ) + 1
        ∧ ∀ t : ℤ, t ≠ ((elapsed / 1000000000 : ℕ) : ℤ) →
            (Server.Do s elapsed).1.accepted t = s.accepted t
      else
        (Server.Do s elapsed).2 = false ∧ (Server.Do s elapsed).1.accepted = s.accepted) := by
  unfold Server.Do
  dsimp only
  by_cases h1 : (elapsed : ℤ) < s.downFor
  · rw [if_pos h1, if_pos h1]
    exact ⟨Function.update_same _ _ _, fun t ht => Function.update_noteq ht _ _, rfl, rfl,
      rfl, rfl⟩
  · by_cases h2 : (s.accepted ((elapsed / 1000000000 : ℕ) : ℤ) : ℤ) < s.capacity
    · rw [if_neg h1, if_neg h1, if_neg (not_le.mpr h2), if_pos h2]
      exact ⟨Function.update_same _ _ _, fun t ht => Function.update_noteq ht _ _, rfl, rfl,
        rfl, Function.update_same _ _ _, fun t ht => Function.update_noteq ht _ _⟩
    · rw [if_neg h1, if_neg h1, if_pos (not_lt.mp h2), if_neg h2]
      exact ⟨Function.update_same _ _ _, fun t ht => Function.update_noteq ht _ _, rfl, rfl,
        rfl, rfl⟩

/-- Witness for C2: on the sample server (2s outage, capacity 5,
accepted[2] already 3 of 5) a call at 2.5s lands in second 2, bumps its
request count from 3 to 4, leaves second 5 alone, and is accepted. -/
theorem Do_spec_witness :
    (Server.Do sampleServer 2500000000).1.requests ((2500000000 / 1000000000 : ℕ) : ℤ)
        = sampleServer.requests ((2500000000 / 1000000000 : ℕ) : ℤ) + 1
    ∧ (Server.Do sampleServer 2500000000).1.requests 5 = sampleServer.requests 5 :=
  ⟨(Do_spec sampleServer 2500000000).1,
   (Do_spec sampleServer 2500000000).2.1 5 (by decide)⟩

lemma runMetrics_foldl_inv (calls : List (ℤ × ℤ)) (m : Metrics)
    (h : m.totalRequests = m.wastedReqs + m.latencies.length) :
    (calls.foldl (fun m c => m.Record c.1 c.2) m).totalRequests
      = (calls.foldl (fun m c => m.Record c.1 c.2) m).wastedReqs
        + (calls.foldl (fun m c => m.Record c.1 c.2) m).latencies.length := by
  induction calls generalizing m with
  | nil => exact h
  | cons c rest ih =>
      refine ih _ ?_
      simp only [Metrics.Record, List.length_append, List.length_cons, List.length_nil]
      push_cast
      omega

/-- Claim C3: Metrics.Record adds wasted + 1 to the total counter, adds
wasted to the wasted counter and appends the latency; consequently from
the zero state every finite sequence of Record calls maintains
totalRequests = wastedReqs + number of recorded latencies. -/
theorem metrics_record_spec :
    (∀ (m : Metrics) (l w : ℤ),
        (m.Record l w).totalRequests = m.totalRequests + (w + 1)
        ∧ (m.Record l w).wastedReqs = m.wastedReqs + w
        ∧ (m.Record l w).latencies = m.latencies ++ [l])
    ∧ ∀ calls : List (ℤ × ℤ),
        (runMetrics calls).totalRequests
          = (runMetrics calls).wastedReqs + (runMetrics calls).latencies.length := by
  refine ⟨fun m l w => ⟨rfl, rfl, rfl⟩, fun calls => ?_⟩
  exact runMetrics_foldl_inv calls zeroMetrics (by simp [zeroMetrics])

lemma clampCap_eq_min (x : ℤ) : (if capSleep < x then capSleep else x) = min x capSleep := by
  rcases le_or_lt x capSleep with hh | hh
  · rw [if_neg (not_lt.mpr hh), min_eq_left hh]
  · rw [if_pos hh, min_eq_right hh.le]

lemma durOfFloat_eq (x : ℤ) (h1 : -(2 ^ 63) ≤ x) (h2 : x < 2 ^ 63) : durOfFloat x = x := by
  unfold durOfFloat
  rw [if_pos ⟨h1, h2⟩]

lemma exponentialBackoff_eq_min (attempt : ℕ) (prev : ℤ)
    (h : baseSleep * 2 ^ attempt < 2 ^ 63) :
    exponentialBackoff attempt prev = min (baseSleep * 2 ^ attempt) capSleep := by
  have hd0 : (0 : ℤ) < baseSleep * 2 ^ attempt :=
    mul_pos (by norm_num [baseSleep]) (pow_pos (by norm_num) _)
  unfold exponentialBackoff
  dsimp only
  rw [durOfFloat_eq _ (by omega) h]
  exact clampCap_eq_min _

lemma fullJitter_eval (attempt : ℕ) (prev : ℤ) (r : ℕ)
    (h : baseSleep * 2 ^ attempt < 2 ^ 63) :
    ∃ v, fullJitter attempt prev r = some v ∧ 0 ≤ v ∧ v < exponentialBackoff attempt prev := by
  have hd0 : (0 : ℤ) < baseSleep * 2 ^ attempt :=
    mul_pos (by norm_num [baseSleep]) (pow_pos (by norm_num) _)
  have hcap : (0 : ℤ) < capSleep := by norm_num [capSleep]
  unfold fullJitter Int63n exponentialBackoff
  dsimp only
  rw [durOfFloat_eq _ (by omega) h]
  rcases lt_or_le capSleep (baseSleep * 2 ^ attempt) with hh | hh
  · rw [if_pos hh, if_neg (not_le.mpr hcap)]
    exact ⟨_, rfl, Int.emod_nonneg _ (ne_of_gt hcap), Int.emod_lt_of_pos _ hcap⟩
  · rw [if_neg (not_lt.mpr hh), if_neg (not_le.mpr hd0)]
    exact ⟨_, rfl, Int.emod_nonneg _ (ne_of_gt hd0), Int.emod_lt_of_pos _ hd0⟩

lemma wrap64_eq (x : ℤ) (h1 : -(2 ^ 63) ≤ x) (h2 : x < 2 ^ 63) : wrap64 x = x := by
  unfold wrap64
  omega

lemma decorrelated_eval (attempt : ℕ) (prev : ℤ) (r : ℕ)
    (h : max prev baseSleep * 3 < 2 ^ 63) :
    ∃ u, baseSleep ≤ u ∧ u ≤ max prev baseSleep * 3 ∧
      decorrelatedJitter attempt prev r = some (min u capSleep) ∧
      baseSleep ≤ min u capSleep ∧ min u capSleep ≤ capSleep := by
  have hbv : baseSleep = 100000000 := rfl
  have hcv : capSleep = 10000000000 := rfl
  have hpge : baseSleep ≤ max prev baseSleep := le_max_right _ _
  unfold decorrelatedJitter
  dsimp only
  have hp : (if prev < baseSleep then baseSleep else prev) = max prev baseSleep := by
    rcases le_or_lt baseSleep prev with hh | hh
    · rw [if_neg (not_lt.mpr hh), max_eq_left hh]
    · rw [if_pos hh, max_eq_right hh.le]
  rw [hp]
  rw [wrap64_eq (max prev baseSleep * 3) (by omega) (by omega)]
  rw [wrap64_eq (max prev baseSleep * 3 - baseSleep) (by omega) (by omega)]
  have npos : (0 : ℤ) < max prev baseSleep * 3 - baseSleep := by omega
  unfold Int63n
  rw [if_neg (not_le.mpr npos)]
  have hx0 : 0 ≤ (r : ℤ) % (max prev baseSleep * 3 - baseSleep) :=
    Int.emod_nonneg _ (ne_of_gt npos)
  have hxlt : (r : ℤ) % (max prev baseSleep * 3 - baseSleep)
      < max prev baseSleep * 3 - baseSleep :=
    Int.emod_lt_of_pos _ npos
  refine ⟨(r : ℤ) % (max prev baseSleep * 3 - baseSleep) + baseSleep,
    by omega, by omega, ?_, le_min (by omega) (by omega), min_le_right _ _⟩
  simp only [Option.map_some']
  rw [wrap64_eq ((r : ℤ) % (max prev baseSleep * 3 - baseSleep) + baseSleep)
    (by omega) (by omega)]
  rw [clampCap_eq_min]

/-- Claim C4 (amended): for every attempt count whose unclamped backoff
product 100ms·2^attempt fits in int64 (attempt at most 36; a real run
reaches the cap at attempt 7), every random value, and every
previousDelay whose tripled lower-clamped value fits in int64 (every
delay the simulator itself produces is at most capSleep and qualifies),
all four strategies return a defined, non-negative duration: exactly 1ms
for constant, and at most capSleep for backoff, jitter and decorrelated.
Outside those bounds the backoff conversion overflows to -2^63 on
gc/amd64, jitter panics inside rand.Int63n on the overflowed bound, and
decorrelatedJitter overflows int64 and panics inside rand.Int63n. -/
theorem strategies_total_bounded (attempt : ℕ) (prev : ℤ) (r : ℕ)
    (hA : baseSleep * 2 ^ attempt < 2 ^ 63)
    (h : max prev baseSleep * 3 < 2 ^ 63) :
    constantRetry attempt prev = 1000000
    ∧ (0 ≤ exponentialBackoff attempt prev ∧ exponentialBackoff attempt prev ≤ capSleep)
    ∧ (∃ v, fullJitter attempt prev r = some v ∧ 0 ≤ v ∧ v ≤ capSleep)
    ∧ (∃ v, decorrelatedJitter attempt prev r = some v ∧ 0 ≤ v ∧ v ≤ capSleep) := by
  have hd0 : (0 : ℤ) < baseSleep * 2 ^ attempt :=
    mul_pos (by norm_num [baseSleep]) (pow_pos (by norm_num) _)
  have hcap : (0 : ℤ) ≤ capSleep := by norm_num [capSleep]
  refine ⟨rfl, ⟨?_, ?_⟩, ?_, ?_⟩
  · rw [exponentialBackoff_eq_min attempt prev hA]
    exact le_min hd0.le hcap
  · rw [exponentialBackoff_eq_min attempt prev hA]
    exact min_le_right _ _
  · obtain ⟨v, hv, h0, hlt⟩ := fullJitter_eval attempt prev r hA
    refine ⟨v, hv, h0, ?_⟩
    rw [exponentialBackoff_eq_min attempt prev hA] at hlt
    exact hlt.le.trans (min_le_right _ _)
  · obtain ⟨u, _, _, heq, hge, hle⟩ := decorrelated_eval attempt prev r h
    exact ⟨min u capSleep, heq, le_trans (by norm_num [baseSleep]) hge, hle⟩

/-- Witness for C4 at attempt 0, previousDelay 0, random value 0. -/
theorem strategies_total_bounded_witness :
    constantRetry 0 0 = 1000000
    ∧ (0 ≤ exponentialBackoff 0 0 ∧ exponentialBackoff 0 0 ≤ capSleep)
    ∧ (∃ v, fullJitter 0 0 0 = some v ∧ 0 ≤ v ∧ v ≤ capSleep)
    ∧ (∃ v, decorrelatedJitter 0 0 0 = some v ∧ 0 ≤ v ∧ v ≤ capSleep) :=
  strategies_total_bounded 0 0 0 (by decide) (by decide)

/-- Counterexample to C4 as stated: at previousDelay 2^62 ns the int64
product prev*3 wraps to a negative value, so rand.Int63n receives a
non-positive argument and panics — the strategy call does not return. -/
theorem decorrelated_overflow_panics : decorrelatedJitter 0 (2 ^ 62) 0 = none := by
  decide

/-- Claim C5 (amended): for every attempt count whose unclamped product
100ms·2^attempt fits in int64 (attempt at most 36), the backoff strategy
returns exactly min(baseSleep * 2^attempt, capSleep), independent of
previousDelay; for larger attempts the float-to-Duration conversion
overflows and gc/amd64 returns -2^63 instead of the cap. -/
theorem exponentialBackoff_spec (attempt : ℕ) (prev : ℤ)
    (h : baseSleep * 2 ^ attempt < 2 ^ 63) :
    exponentialBackoff attempt prev = min (baseSleep * 2 ^ attempt) capSleep :=
  exponentialBackoff_eq_min attempt prev h

/-- Witness for C5 at attempt 8, where the 25.6s product is already
capped to 10s. -/
theorem exponentialBackoff_spec_witness :
    exponentialBackoff 8 0 = min (baseSleep * 2 ^ 8) capSleep :=
  exponentialBackoff_spec 8 0 (by decide)

/-- Counterexample to C5 as stated: at attempt 37 the product
100ms·2^37 exceeds maxInt64, the gc/amd64 conversion yields -2^63, the
cap clamp does not fire, and the strategy returns -2^63 rather than
min(base * 2^37, cap) = capSleep. -/
theorem exponentialBackoff_overflow_cex :
    exponentialBackoff 37 0 = -(2 ^ 63)
    ∧ min (baseSleep * 2 ^ 37) capSleep = capSleep
    ∧ exponentialBackoff 37 0 ≠ min (baseSleep * 2 ^ 37) capSleep := by
  decide

/-- Claim C6 (amended): for every attempt count whose unclamped product
100ms·2^attempt fits in int64 (attempt at most 36) and every random
value, the jitter strategy returns a defined value in
[0, backoff(attempt)), strictly below the backoff value (which is never
zero there); for larger attempts the overflowed bound is -2^63, the cap
clamp does not fire, and rand.Int63n panics. -/
theorem fullJitter_lt_backoff (attempt : ℕ) (prev : ℤ) (r : ℕ)
    (h : baseSleep * 2 ^ attempt < 2 ^ 63) :
    ∃ v, fullJitter attempt prev r = some v ∧ 0 ≤ v ∧ v < exponentialBackoff attempt prev :=
  fullJitter_eval attempt prev r h

/-- Witness for C6 at attempt 8 and random value 12345. -/
theorem fullJitter_lt_backoff_witness :
    ∃ v, fullJitter 8 0 12345 = some v ∧ 0 ≤ v ∧ v < exponentialBackoff 8 0 :=
  fullJitter_lt_backoff 8 0 12345 (by decide)

/-- Counterexample to C6 as stated: at attempt 37 the overflowed bound
-2^63 reaches rand.Int63n, which panics on a non-positive argument, so
jitter returns no value at all. -/
theorem fullJitter_overflow_panics : fullJitter 37 0 0 = none := by
  decide

/-- Claim C7 (amended): for every previousDelay whose tripled
lower-clamped value fits in int64 and every random value, the
decorrelated strategy returns clamp(u, baseSleep, capSleep) for some u in
[baseSleep, max(previousDelay, baseSleep) * 3], and the result lies in
[baseSleep, capSleep].  Without the bound the int64 multiplication
overflows and the strategy panics inside rand.Int63n. -/
theorem decorrelated_spec (attempt : ℕ) (prev : ℤ) (r : ℕ)
    (h : max prev baseSleep * 3 < 2 ^ 63) :
    ∃ u, baseSleep ≤ u ∧ u ≤ max prev baseSleep * 3 ∧
      decorrelatedJitter attempt prev r = some (min (max u baseSleep) capSleep) ∧
      baseSleep ≤ min (max u baseSleep) capSleep
      ∧ min (max u baseSleep) capSleep ≤ capSleep := by
  obtain ⟨u, hu1, hu2, heq, hge, hle⟩ := decorrelated_eval attempt prev r h
  refine ⟨u, hu1, hu2, ?_, ?_, ?_⟩ <;> rw [max_eq_left hu1]
  · exact heq
  · exact hge
  · exact hle

/-- Witness for C7 at previousDelay 0 and random value 0. -/
theorem decorrelated_spec_witness :
    ∃ u, baseSleep ≤ u ∧ u ≤ max 0 baseSleep * 3 ∧
      decorrelatedJitter 0 0 0 = some (min (max u baseSleep) capSleep) ∧
      baseSleep ≤ min (max u baseSleep) capSleep
      ∧ min (max u baseSleep) capSleep ≤ capSleep :=
  decorrelated_spec 0 0 0 (by decide)

/-- Counterexample to C7 as stated: at previousDelay 2^62 + 1 ns the
int64 product wraps negative and rand.Int63n panics, so the strategy
yields no value at all, let alone one in [baseSleep, capSleep]. -/
theorem decorrelated_overflow_panics_succ :
    decorrelatedJitter 0 (2 ^ 62 + 1) 0 = none := by
  decide

lemma floor_p99 (n : ℕ) : ⌊(0.99 : ℚ) * (n : ℚ)⌋₊ = 99 * n / 100 := by
  have h : (0.99 : ℚ) * (n : ℚ) = ((99 * n : ℕ) : ℚ) / ((100 : ℕ) : ℚ) := by
    push_cast
    ring_nf
  rw [h, Nat.floor_div_nat, Nat.floor_natCast]

/-- Claim C8 (amended): the reported p99 latency is the element of the
sorted latency collection at index floor(0.99 * n) clamped to the last
valid index, and zero when no latencies exist; in particular for the
collection {1, ..., 100} the index is floor(99) = 99, so the reported p99
is the element at zero-based index 99, the value 100 — not the element at
index 98. -/
theorem p99_spec :
    (∀ lats : List ℤ,
        p99Of lats
          = if lats.length = 0 then 0
            else (sortLats lats).getD
              (min ⌊(0.99 : ℚ) * (lats.length : ℚ)⌋₊ (lats.length - 1)) 0)
    ∧ p99Of oneTo100 = 100 := by
  refine ⟨fun lats => ?_, by decide⟩
  have hlen : (sortLats lats).length = lats.length :=
    (List.perm_insertionSort _ lats).length_eq
  unfold p99Of p99Index
  dsimp only
  rw [hlen, floor_p99]
  by_cases h0 : lats.length = 0
  · rw [if_pos h0, if_pos h0]
  · rw [if_neg h0, if_neg h0]
    congr 1
    split <;> omega

/-- Counterexample to C8 as stated: for latencies {1, ..., 100} the
element at zero-based index 98 of the sorted collection is 99, but the
code reports 100 (the element at index floor(0.99 * 100) = 99). -/
theorem p99_index98_cex :
    (sortLats oneTo100).getD 98 0 = 99 ∧ p99Of oneTo100 = 100 := by
  decide

lemma findStable_none (srv : Server) (s : ℤ) (n : ℕ) (h : findStable srv s n = none) :
    ∀ u : ℤ, s ≤ u → u < s + (n : ℤ) → ¬ stableAt srv u := by
  induction n generalizing s with
  | zero =>
      intro u h1 h2
      exact absurd h2 (by push_cast; omega)
  | succ n ih =>
      intro u h1 h2
      simp only [findStable] at h
      split at h
      · exact absurd h (Option.some_ne_none s)
      · next hns =>
          rcases eq_or_lt_of_le h1 with he | hlt
          · exact he ▸ hns
          · exact ih (s + 1) h u (by omega) (by push_cast at h2 ⊢; omega)

lemma findStable_some (srv : Server) (s : ℤ) (n : ℕ) (t : ℤ)
    (h : findStable srv s n = some t) :
    s ≤ t ∧ t < s + (n : ℤ) ∧ stableAt srv t ∧
      ∀ u : ℤ, s ≤ u → u < t → ¬ stableAt srv u := by
  induction n generalizing s with
  | zero => simp [findStable] at h
  | succ n ih =>
      simp only [findStable] at h
      split at h
      · next hst =>
          rw [Option.some_inj] at h
          subst h
          exact ⟨le_refl _, by push_cast; omega, hst,
            fun u hu1 hu2 => absurd hu1 (by omega)⟩
      · next hns =>
          obtain ⟨h1, h2, h3, h4⟩ := ih (s + 1) h
          refine ⟨by omega, by push_cast at h2 ⊢; omega, h3, fun u hu1 hu2 => ?_⟩
          rcases eq_or_lt_of_le hu1 with he | hlt
          · exact he ▸ hns
          · exact h4 u (by omega) hu2

/-- Claim C9: time-to-stable is the smallest second s in the 60-second
window starting at the end of the outage with requests[s] > 0 and
requests[s] = accepted[s], reported relative to the end of the outage;
when no such second exists in the window, the sentinel -1 (printed as the
unresolved report) results.  In particular the scenario server (2s
outage, capacity 5, requests[2] = accepted[2] = 3) reports 0. -/
theorem timeToStable_spec (srv : Server) :
    ((∃ t : ℤ, downSecOf srv ≤ t ∧ t < downSecOf srv + 60 ∧
        0 < srv.requests t ∧ srv.requests t = srv.accepted t) →
      ∃ s : ℤ, downSecOf srv ≤ s ∧ s < downSecOf srv + 60 ∧
        0 < srv.requests s ∧ srv.requests s = srv.accepted s ∧
        (∀ u : ℤ, downSecOf srv ≤ u → u < s →
          ¬ (0 < srv.requests u ∧ srv.requests u = srv.accepted u)) ∧
        recoveryTime srv = s - downSecOf srv)
    ∧ ((∀ u : ℤ, downSecOf srv ≤ u → u < downSecOf srv + 60 →
          ¬ (0 < srv.requests u ∧ srv.requests u = srv.accepted u)) →
        recoveryTime srv = -1)
    ∧ recoveryTime sampleServer = 0 := by
  have hbr : ∀ (sv : Server) (u : ℤ),
      stableAt sv u ↔ (0 < sv.requests u ∧ sv.requests u = sv.accepted u) := by
    intro sv u
    unfold stableAt
    constructor
    · rintro ⟨a, b⟩
      exact ⟨a, by omega⟩
    · rintro ⟨a, b⟩
      exact ⟨a, by omega⟩
  refine ⟨?_, ?_, by decide⟩
  · rintro ⟨t, ht1, ht2, htp, hte⟩
    cases hfind : findStable srv (downSecOf srv) 60 with
    | none =>
        exact absurd ((hbr srv t).mpr ⟨htp, hte⟩)
          (findStable_none srv _ 60 hfind t ht1 (by push_cast; omega))
    | some s =>
        obtain ⟨h1, h2, h3, h4⟩ := findStable_some srv _ 60 s hfind
        refine ⟨s, h1, by push_cast at h2; omega,
          ((hbr srv s).mp h3).1, ((hbr srv s).mp h3).2, ?_, ?_⟩
        · intro u hu1 hu2 hc
          exact h4 u hu1 hu2 ((hbr srv u).mpr hc)
        · unfold recoveryTime
          rw [hfind]
  · intro hall
    cases hfind : findStable srv (downSecOf srv) 60 with
    | none =>
        unfold recoveryTime
        rw [hfind]
    | some s =>
        obtain ⟨h1, h2, h3, _⟩ := findStable_some srv _ 60 s hfind
        exact absurd ((hbr srv s).mp h3) (hall s h1 (by push_cast at h2; omega))

/-- Witness for C9: a server that never saw a request has no stable
second in the window, so the unresolved sentinel results. -/
theorem timeToStable_spec_witness : recoveryTime emptyServer = -1 :=
  (timeToStable_spec emptyServer).2.1
    (fun u _ _ hc => absurd hc.1 (by simp [emptyServer]))

/-- Claim C10 (amended): reporting leaves the Server completely unchanged
and preserves the Metrics' total and wasted counters; the latency
collection is preserved as a multiset (same elements, same length), but
printSummary sorts the slice in place, so the order of its elements is
not preserved. -/
theorem reporting_frame (srv : Server) (m : Metrics) (maxSec maxCount : ℕ) :
    (printHistogram srv maxSec maxCount).1 = srv
    ∧ (printSummary srv m).2.1 = srv
    ∧ (printSummary srv m).2.2.totalRequests = m.totalRequests
    ∧ (printSummary srv m).2.2.wastedReqs = m.wastedReqs
    ∧ (printSummary srv m).2.2.latencies.Perm m.latencies
    ∧ (printSummary srv m).2.2.latencies.length = m.latencies.length := by
  refine ⟨rfl, rfl, rfl, rfl, ?_, ?_⟩
  · exact List.perm_insertionSort _ m.latencies
  · exact (List.perm_insertionSort _ m.latencies).length_eq

/-- Counterexample to C10 as stated: printSummary sorts the latency slice
in place, so a finished metrics state with out-of-order latencies [2, 1]
comes back with its element order changed. -/
theorem reporting_reorders_latencies :
    (printSummary emptyServer cexMetrics).2.2.latencies ≠ cexMetrics.latencies := by
  decide

end RetrySim
